import Mathlib

/-!
Verification model of the barbook bookkeeping application (src/app.py).

The Python source is a Flask application over two SQLite tables
(`daily_sales` and `expenses`).  This file gives a shallow embedding of
its core: calendar dates, the `month_bounds` helper, the mutating route
handlers (sales upsert, sale edit, expense create/edit/delete), the
sum-aggregate queries of the summary/export routes, the ordering of the
listing queries, the monthly-close report tables, and the file paths of
the backup route.  Monetary values (Python floats) are modelled as
rationals; database tables are modelled as lists of rows carrying their
integer primary keys.
-/

namespace Barbook

/-- A calendar date, as stored in the `Date` columns.  Components are
unconstrained here; `mkDate?` below performs the validation that
Python's `datetime.date` constructor performs. -/
structure Date where
  year : Nat
  month : Nat
  day : Nat
deriving DecidableEq

/-- Calendar (lexicographic) order on dates, the order SQLite uses for
`Date` columns in comparisons and `ORDER BY`. -/
def dateLe (a b : Date) : Prop :=
  a.year < b.year ∨ (a.year = b.year ∧
    (a.month < b.month ∨ (a.month = b.month ∧ a.day ≤ b.day)))

instance dateLe.dec : ∀ a b : Date, Decidable (dateLe a b) := by
  intro a b
  unfold dateLe
  infer_instance

/-- SQL `BETWEEN start AND end` on a date column (inclusive on both ends). -/
def dateInRange (x s e : Date) : Bool :=
  decide (dateLe s x) && decide (dateLe x e)

/-- `calendar.mdays` from CPython: day counts per month, index 0 unused. -/
def mdays : List Nat := [0, 31, 28, 31, 30, 31, 30, 31, 31, 30, 31, 30, 31]

/-- `calendar.isleap`: Gregorian leap-year test. -/
def isleap (y : Nat) : Bool :=
  (y % 4 == 0 && y % 100 != 0) || y % 400 == 0

/-- Number of days of month `m` of year `y`, as computed by
`calendar.monthrange(y, m)[1]` for `1 <= m <= 12`. -/
def daysInMonth (y m : Nat) : Nat :=
  mdays.getD m 0 + (if m = 2 ∧ isleap y = true then 1 else 0)

/-- `datetime.date(y, m, d)`: validates year, month and day ranges and
returns the date, or fails (raises `ValueError` in Python). -/
def mkDate? (y m d : Int) : Option Date :=
  if 1 ≤ y ∧ y ≤ 9999 ∧ 1 ≤ m ∧ m ≤ 12 ∧ 1 ≤ d ∧
      d ≤ (daysInMonth y.toNat m.toNat : Int) then
    some ⟨y.toNat, m.toNat, d.toNat⟩
  else none

/-- `calendar.monthrange(y, m)[1]`: fails unless `1 <= m <= 12`. -/
def monthrangeDays? (y m : Int) : Option Int :=
  if 1 ≤ m ∧ m ≤ 12 then some (daysInMonth y.toNat m.toNat) else none

/-- The date-construction part of `month_bounds` (app.py lines 100-101):
`start = date(y, m, 1)`, `end = date(y, m, monthrange(y, m)[1])`. -/
def monthBoundsYM (y m : Int) : Option (Date × Date) := do
  let start ← mkDate? y m 1
  let nd ← monthrangeDays? y m
  let stop ← mkDate? y m nd
  pure (start, stop)

/-- ASCII whitespace, as recognised by Python's `str.strip`/`int` (the
Unicode whitespace set is not modelled). -/
def isSpc (c : Char) : Bool :=
  c == ' ' || c == '\t' || c == '\n' || c == '\r' || c == '\x0b' || c == '\x0c'

def isDig (c : Char) : Bool := decide ('0' ≤ c) && decide (c ≤ '9')

def digitsToNat (l : List Char) : Nat :=
  l.foldl (fun n c => n * 10 + (c.toNat - '0'.toNat)) 0

/-- Python `int(s)` on a decimal string: optional sign followed by a
nonempty digit run (whitespace padding and underscores are not
modelled).  Returns `none` where Python raises `ValueError`. -/
def pyInt? (l : List Char) : Option Int :=
  match l with
  | '+' :: rest =>
    if rest.isEmpty then none
    else if rest.all isDig then some (digitsToNat rest) else none
  | '-' :: rest =>
    if rest.isEmpty then none
    else if rest.all isDig then some (-(digitsToNat rest : Int)) else none
  | _ =>
    if l.isEmpty then none
    else if l.all isDig then some (digitsToNat l) else none

/-- Python `s.split("-")`: split at every dash, keeping empty pieces. -/
def splitDash : List Char → List (List Char)
  | [] => [[]]
  | c :: cs =>
    if c = '-' then [] :: splitDash cs
    else
      match splitDash cs with
      | t :: ts => (c :: t) :: ts
      | [] => [[c]]

/-- The parsing part of `month_bounds` (app.py line 99):
`y, m = map(int, yyyy_mm.split("-"))`.  Fails unless the split yields
exactly two pieces and both parse as integers. -/
def parseMonthToken (s : String) : Option (Int × Int) :=
  match splitDash s.data with
  | [ys, ms] => do
    let y ← pyInt? ys
    let m ← pyInt? ms
    pure (y, m)
  | _ => none

/-- `month_bounds` (app.py lines 98-102): first and last calendar day of
the month named by a `YYYY-MM` token; `none` models the exception path. -/
def monthBounds (s : String) : Option (Date × Date) :=
  match parseMonthToken s with
  | some (y, m) => monthBoundsYM y m
  | none => none

/-- Decimal rendering of a natural number, zero-padded to width 2
(`%m`, `%d` of `strftime`). -/
def pad2 (n : Nat) : String :=
  if n < 10 then "0" ++ toString n else toString n

/-- Decimal rendering of a year, zero-padded to width 4 (`%Y`). -/
def pad4 (n : Nat) : String :=
  if n < 10 then "000" ++ toString n
  else if n < 100 then "00" ++ toString n
  else if n < 1000 then "0" ++ toString n
  else toString n

/-- `d.strftime("%Y-%m")`, used for the default month token. -/
def formatMonth (d : Date) : String := pad4 d.year ++ "-" ++ pad2 d.month

/-- `d.isoformat()`. -/
def isoDate (d : Date) : String :=
  pad4 d.year ++ "-" ++ pad2 d.month ++ "-" ++ pad2 d.day

/-- Sakamoto day-of-week table. -/
def dowTable : List Nat := [0, 3, 2, 5, 0, 3, 5, 1, 4, 6, 2, 4]

/-- Day of week, 0 = Sunday (Sakamoto's congruence). -/
def dayOfWeek (d : Date) : Nat :=
  let y := if d.month < 3 then d.year - 1 else d.year
  (y + y / 4 - y / 100 + y / 400 + dowTable.getD (d.month - 1) 0 + d.day) % 7

def dayNames : List String :=
  ["Sunday", "Monday", "Tuesday", "Wednesday", "Thursday", "Friday", "Saturday"]

/-- `d.strftime("%A")` (the `day_name` property of `DailySale`). -/
def dayName (d : Date) : String := dayNames.getD (dayOfWeek d) ""

/-- Round a rational to the nearest integer, ties to even (the rounding
used when formatting with `%.2f`). -/
def roundHalfEven (q : ℚ) : ℤ :=
  let f := ⌊q⌋
  let r := q - (f : ℚ)
  if r < 1 / 2 then f
  else if 1 / 2 < r then f + 1
  else if f % 2 = 0 then f else f + 1

/-- Python `f"{x:.2f}"` on the rational model of a float. -/
def fmt2 (q : ℚ) : String :=
  let sign := if q < 0 then "-" else ""
  let c := (roundHalfEven (|q| * 100)).toNat
  sign ++ toString (c / 100) ++ "." ++ pad2 (c % 100)

/-- A row of the `daily_sales` table (`DailySale` model, app.py lines
70-80).  `sale_date` carries a `unique=True` constraint in the schema;
here uniqueness is tracked as an invariant of reachable states. -/
structure DailySale where
  id : Nat
  sale_date : Date
  total_sales : ℚ
  daily_profit : ℚ
deriving DecidableEq

/-- A row of the `expenses` table (`Expense` model, app.py lines 83-89). -/
structure Expense where
  id : Nat
  expense_date : Date
  description : String
  amount : ℚ
deriving DecidableEq

/-- The persisted database state: the two tables in insertion order,
plus the autoincrement counters for their integer primary keys. -/
structure DB where
  sales : List DailySale
  expenses : List Expense
  nextSaleId : Nat
  nextExpenseId : Nat
deriving DecidableEq

/-- The state after `db.create_all()` on a fresh file: both tables
empty, SQLite rowids starting from 1. -/
def emptyDB : DB := ⟨[], [], 1, 1⟩

/-- Mutate the first row satisfying `p` (the ORM updates the single
object returned by `.first()` / `.get()`). -/
def updateFirst (p : α → Bool) (f : α → α) : List α → List α
  | [] => []
  | x :: xs => if p x then f x :: xs else x :: updateFirst p f xs

/-- Python `s.strip()` on the ASCII whitespace set: drop leading and
trailing whitespace characters. -/
def pyStrip (s : String) : String :=
  ⟨(((s.data.dropWhile isSpc).reverse.dropWhile isSpc).reverse : List Char)⟩

/-- The POST branch of the `/sales` route (app.py lines 168-196):
validate non-negativity, then upsert by `sale_date`.  `Except.error`
models the caught exception plus rollback (the caller keeps the old
state); `Except.ok` carries the committed state. -/
def salesPost (db : DB) (d : Date) (total_sales daily_profit : ℚ) :
    Except String DB :=
  if total_sales < 0 ∨ daily_profit < 0 then
    Except.error "Values must be non-negative."
  else
    match db.sales.find? (fun r => decide (r.sale_date = d)) with
    | some _ =>
      Except.ok { db with
        sales := updateFirst (fun r => decide (r.sale_date = d))
          (fun r => { r with total_sales := total_sales,
                             daily_profit := daily_profit }) db.sales }
    | none =>
      Except.ok { db with
        sales := db.sales ++ [⟨db.nextSaleId, d, total_sales, daily_profit⟩],
        nextSaleId := db.nextSaleId + 1 }

/-- The POST branch of `/sales/<id>/edit` (app.py lines 204-231):
`get_or_404`, validation, then the conflict check against any *other*
row owning the target date, then the in-place update. -/
def editSale (db : DB) (sale_id : Nat) (d : Date) (total_sales daily_profit : ℚ) :
    Except String DB :=
  match db.sales.find? (fun r => decide (r.id = sale_id)) with
  | none => Except.error "404 Not Found"
  | some sale =>
    if total_sales < 0 ∨ daily_profit < 0 then
      Except.error "Values must be non-negative."
    else if (db.sales.find? (fun r =>
        decide (r.sale_date = d) && decide (r.id ≠ sale.id))).isSome then
      Except.error "Another sale entry already exists for that date."
    else
      Except.ok { db with
        sales := updateFirst (fun r => decide (r.id = sale_id))
          (fun r => { r with sale_date := d, total_sales := total_sales,
                             daily_profit := daily_profit }) db.sales }

/-- `/sales/<id>/delete` (app.py lines 238-247): `get_or_404` then
delete the row. -/
def deleteSale (db : DB) (sale_id : Nat) : Except String DB :=
  match db.sales.find? (fun r => decide (r.id = sale_id)) with
  | none => Except.error "404 Not Found"
  | some _ =>
    Except.ok { db with
      sales := db.sales.eraseP (fun r => decide (r.id = sale_id)) }

/-- The POST branch of `/expenses` (app.py lines 253-269): strip the
description, validate, then always insert a new row. -/
def expensesPost (db : DB) (d : Date) (description : String) (amount : ℚ) :
    Except String DB :=
  if pyStrip description = "" then Except.error "Description is required."
  else if amount < 0 then Except.error "Amount must be non-negative."
  else
    Except.ok { db with
      expenses := db.expenses ++ [⟨db.nextExpenseId, d, pyStrip description, amount⟩],
      nextExpenseId := db.nextExpenseId + 1 }

/-- The POST branch of `/expenses/<id>/edit` (app.py lines 280-302):
`get_or_404`, strip + validate, overwrite in place. -/
def editExpense (db : DB) (expense_id : Nat) (d : Date) (description : String)
    (amount : ℚ) : Except String DB :=
  match db.expenses.find? (fun r => decide (r.id = expense_id)) with
  | none => Except.error "404 Not Found"
  | some _ =>
    if pyStrip description = "" then Except.error "Description is required."
    else if amount < 0 then Except.error "Amount must be non-negative."
    else
      Except.ok { db with
        expenses := updateFirst (fun r => decide (r.id = expense_id))
          (fun r => { r with expense_date := d, description := pyStrip description,
                             amount := amount }) db.expenses }

/-- `/expenses/<id>/delete` (app.py lines 309-318). -/
def deleteExpense (db : DB) (expense_id : Nat) : Except String DB :=
  match db.expenses.find? (fun r => decide (r.id = expense_id)) with
  | none => Except.error "404 Not Found"
  | some _ =>
    Except.ok { db with
      expenses := db.expenses.eraseP (fun r => decide (r.id = expense_id)) }

/-- Run one sales-upsert request: on error the handler rolls back and
the state is unchanged. -/
def applySaleOp (db : DB) (op : Date × ℚ × ℚ) : DB :=
  match salesPost db op.1 op.2.1 op.2.2 with
  | Except.ok db2 => db2
  | Except.error _ => db

/-- A sequence of sales-upsert requests. -/
def applySaleOps (db : DB) (ops : List (Date × ℚ × ℚ)) : DB :=
  ops.foldl applySaleOp db

/-- One expense-mutating request. -/
inductive ExpOp where
  | create (d : Date) (description : String) (amount : ℚ)
  | edit (id : Nat) (d : Date) (description : String) (amount : ℚ)
  | del (id : Nat)

/-- Run one expense request with rollback-on-error semantics. -/
def applyExpOp (db : DB) : ExpOp → DB
  | ExpOp.create d desc amt =>
    match expensesPost db d desc amt with
    | Except.ok db2 => db2
    | Except.error _ => db
  | ExpOp.edit i d desc amt =>
    match editExpense db i d desc amt with
    | Except.ok db2 => db2
    | Except.error _ => db
  | ExpOp.del i =>
    match deleteExpense db i with
    | Except.ok db2 => db2
    | Except.error _ => db

/-- A sequence of expense-mutating requests. -/
def applyExpOps (db : DB) (ops : List ExpOp) : DB :=
  ops.foldl applyExpOp db

/-- SQL `SUM(col)`: `NULL` (here `none`) on an empty row set. -/
def sqlSum (l : List ℚ) : Option ℚ :=
  match l with
  | [] => none
  | _ => l.sum

/-- SQL `COALESCE(x, d)`. -/
def coalesce (o : Option ℚ) (d : ℚ) : ℚ := o.getD d

/-- `func.coalesce(func.sum(DailySale.total_sales), 0.0)` filtered by
`sale_date BETWEEN start AND end` (app.py lines 334-338). -/
def totalSalesAgg (db : DB) (s e : Date) : ℚ :=
  coalesce (sqlSum (((db.sales.filter (fun r => dateInRange r.sale_date s e)).map
    (fun r => r.total_sales)))) 0

/-- Same aggregate over `daily_profit` (app.py lines 339-343). -/
def totalProfitAgg (db : DB) (s e : Date) : ℚ :=
  coalesce (sqlSum (((db.sales.filter (fun r => dateInRange r.sale_date s e)).map
    (fun r => r.daily_profit)))) 0

/-- Same aggregate over `Expense.amount` (app.py lines 344-348). -/
def totalExpensesAgg (db : DB) (s e : Date) : ℚ :=
  coalesce (sqlSum (((db.expenses.filter (fun r => dateInRange r.expense_date s e)).map
    (fun r => r.amount)))) 0

/-- `net_profit = float(total_profit) - float(total_expenses)`
(app.py line 350). -/
def netProfitAgg (db : DB) (s e : Date) : ℚ :=
  totalProfitAgg db s e - totalExpensesAgg db s e

/-- Ordering of sale rows by `sale_date.asc()`. -/
def saleRowLe (a b : DailySale) : Prop := dateLe a.sale_date b.sale_date

instance saleRowLe.dec : ∀ a b : DailySale, Decidable (saleRowLe a b) := by
  intro a b
  unfold saleRowLe dateLe
  infer_instance

/-- Ordering of expense rows by `(expense_date.asc(), id.asc())`:
lexicographic on the date components, ties broken by the primary key. -/
def expRowLe (a b : Expense) : Prop :=
  a.expense_date.year < b.expense_date.year ∨ (a.expense_date.year = b.expense_date.year ∧
    (a.expense_date.month < b.expense_date.month ∨ (a.expense_date.month = b.expense_date.month ∧
      (a.expense_date.day < b.expense_date.day ∨ (a.expense_date.day = b.expense_date.day ∧
        a.id ≤ b.id)))))

instance expRowLe.dec : ∀ a b : Expense, Decidable (expRowLe a b) := by
  intro a b
  unfold expRowLe
  infer_instance

/-- Ordering of expense rows by `(expense_date.desc(), id.desc())`,
used by the `/expenses` listing page. -/
def expRowGe (a b : Expense) : Prop := expRowLe b a

instance expRowGe.dec : ∀ a b : Expense, Decidable (expRowGe a b) := by
  intro a b
  unfold expRowGe
  infer_instance

/-- Sale rows listed by the summary page and the monthly PDF (app.py
lines 352-356 and 480-484): range filter, ordered by date ascending. -/
def summarySalesRows (db : DB) (s e : Date) : List DailySale :=
  List.insertionSort saleRowLe
    (db.sales.filter (fun r => dateInRange r.sale_date s e))

/-- Expense rows listed by the summary page and the monthly PDF (app.py
lines 357-361 and 485-489): range filter, ordered ascending with the
primary-key tie-break. -/
def summaryExpenseRows (db : DB) (s e : Date) : List Expense :=
  List.insertionSort expRowLe
    (db.expenses.filter (fun r => dateInRange r.expense_date s e))

/-- The `/expenses` listing page query (app.py line 273): descending by
`(expense_date, id)`, limited to the latest 150 rows. -/
def expensesListing (db : DB) : List Expense :=
  (List.insertionSort expRowGe db.expenses).take 150

/-- The `/export/expenses.csv` query (app.py line 393): all rows,
ascending by `(expense_date, id)`. -/
def exportExpensesRows (db : DB) : List Expense :=
  List.insertionSort expRowLe db.expenses

/-- The `/export/expenses.csv` row data (app.py line 394). -/
def exportExpensesData (db : DB) : List (List String) :=
  (exportExpensesRows db).map
    (fun r => [isoDate r.expense_date, r.description, fmt2 r.amount])

/-- Month resolution of the `/summary` route (app.py lines 324-332):
use `month_bounds` on the requested token; on failure fall back to the
current month and `flash` a notice.  The result is the month string,
the bounds, and whether the notice was flashed; `none` models an
unhandled exception while re-resolving the fallback. -/
def resolveSummaryMonth (tok : String) (today : Date) :
    Option (String × (Date × Date) × Bool) :=
  match monthBounds tok with
  | some b => some (tok, b, false)
  | none =>
    match monthBounds (formatMonth today) with
    | some b => some (formatMonth today, b, true)
    | none => none

/-- Month resolution of `/export/summary.csv` (app.py lines 401-408):
same fallback, but no notice of any kind is surfaced. -/
def resolveExportMonth (tok : String) (today : Date) :
    Option (String × (Date × Date) × Bool) :=
  match monthBounds tok with
  | some b => some (tok, b, false)
  | none =>
    match monthBounds (formatMonth today) with
    | some b => some (formatMonth today, b, false)
    | none => none

/-- Month resolution of `/report/monthly.pdf` (app.py lines 454-461):
identical to the CSV export, again with no notice. -/
def resolvePdfMonth (tok : String) (today : Date) :
    Option (String × (Date × Date) × Bool) :=
  match monthBounds tok with
  | some b => some (tok, b, false)
  | none =>
    match monthBounds (formatMonth today) with
    | some b => some (formatMonth today, b, false)
    | none => none

/-- The summary key-value table of the monthly-close PDF (app.py lines
511-516). -/
def pdfSummaryTable (db : DB) (s e : Date) : List (List String) :=
  [["Total Sales", fmt2 (totalSalesAgg db s e)],
   ["Total Expenses", fmt2 (totalExpensesAgg db s e)],
   ["Total Daily Profit", fmt2 (totalProfitAgg db s e)],
   ["Net Profit", fmt2 (netProfitAgg db s e)]]

/-- The daily-sales table of the monthly-close PDF (app.py lines
535-539): header, one row per sale in range, and a placeholder row when
there are no sales. -/
def pdfSalesTable (db : DB) (s e : Date) : List (List String) :=
  let rows := [["Date", "Day", "Total Sales", "Daily Profit"]] ++
    (summarySalesRows db s e).map (fun r =>
      [isoDate r.sale_date, dayName r.sale_date, fmt2 r.total_sales,
       fmt2 r.daily_profit])
  if rows.length = 1 then rows ++ [["-", "-", "0.00", "0.00"]] else rows

/-- The expenses table of the monthly-close PDF (app.py lines 558-562),
with the same placeholder policy. -/
def pdfExpensesTable (db : DB) (s e : Date) : List (List String) :=
  let rows := [["Date", "Description", "Amount"]] ++
    (summaryExpenseRows db s e).map (fun r =>
      [isoDate r.expense_date, r.description, fmt2 r.amount])
  if rows.length = 1 then rows ++ [["-", "-", "0.00"]] else rows

/-- `os.path.join` for a relative second component. -/
def ospJoin (a b : String) : String := a ++ "/" ++ b

/-- `DATA_DIR = os.environ.get("DATA_DIR", os.path.join(BASE_DIR, "data"))`
(app.py line 59). -/
def dataDir (baseDir : String) (envDataDir : Option String) : String :=
  envDataDir.getD (ospJoin baseDir "data")

/-- `DB_PATH = os.path.join(DATA_DIR, "barbook.db")` (app.py line 62):
the file the persistence layer reads and writes. -/
def dbPath (baseDir : String) (envDataDir : Option String) : String :=
  ospJoin (dataDir baseDir envDataDir) "barbook.db"

/-- The path the `/backup/db` route serves (app.py line 443):
`os.path.join(BASE_DIR, "barbook.db")`. -/
def backupServedPath (baseDir : String) : String :=
  ospJoin baseDir "barbook.db"

/-- The `/sales/<id>/edit` POST handler as the route sees it: the
committed state together with the flash message of the except branch;
on error the session is rolled back, so the state component is the
unchanged input state. -/
def runEditSale (db : DB) (sale_id : Nat) (d : Date) (ts dp : ℚ) :
    DB × Option String :=
  match editSale db sale_id d ts dp with
  | Except.ok db2 => (db2, none)
  | Except.error m => (db, some m)

/-- Uniqueness of `sale_date` over the sales table (the schema's
`unique=True` on the column). -/
def salesDatesNodup (db : DB) : Prop :=
  (db.sales.map (fun r => r.sale_date)).Nodup

/-- A string with no leading and no trailing whitespace. -/
def Trimmed (s : String) : Prop :=
  s.data.dropWhile isSpc = s.data ∧ s.data.reverse.dropWhile isSpc = s.data.reverse

/-- A well-formed stored description: trimmed and non-empty. -/
def GoodDesc (s : String) : Prop := Trimmed s ∧ s ≠ ""

/-- The implicit invariant of the expenses table: every stored
description is trimmed and non-empty. -/
def expensesInv (db : DB) : Prop := ∀ r ∈ db.expenses, GoodDesc r.description

instance saleRowLe.total : IsTotal DailySale saleRowLe := by
  constructor
  intro a b
  unfold saleRowLe dateLe
  omega

instance saleRowLe.trans : IsTrans DailySale saleRowLe := by
  constructor
  intro a b c
  unfold saleRowLe dateLe
  omega

instance expRowLe.total : IsTotal Expense expRowLe := by
  constructor
  intro a b
  unfold expRowLe
  omega

instance expRowLe.trans : IsTrans Expense expRowLe := by
  constructor
  intro a b c
  unfold expRowLe
  omega

instance expRowGe.total : IsTotal Expense expRowGe := by
  constructor
  intro a b
  unfold expRowGe expRowLe
  omega

instance expRowGe.trans : IsTrans Expense expRowGe := by
  constructor
  intro a b c
  unfold expRowGe expRowLe
  omega

theorem coalesce_sqlSum (l : List ℚ) : coalesce (sqlSum l) 0 = l.sum := by
  cases l with
  | nil => simp [sqlSum, coalesce]
  | cons x xs => simp [sqlSum, coalesce]

theorem updateFirst_length (p : α → Bool) (f : α → α) (l : List α) :
    (updateFirst p f l).length = l.length := by
  induction l with
  | nil => rfl
  | cons x xs ih =>
    unfold updateFirst
    by_cases h : p x
    · simp [h]
    · simp [h, ih]

theorem updateFirst_mem (p : α → Bool) (f : α → α) (l : List α) (x : α)
    (hx : x ∈ updateFirst p f l) :
    x ∈ l ∨ ∃ y ∈ l, p y = true ∧ x = f y := by
  induction l with
  | nil => simp [updateFirst] at hx
  | cons a as ih =>
    unfold updateFirst at hx
    by_cases h : p a
    · simp [h] at hx
      rcases hx with hx | hx
      · exact Or.inr ⟨a, by simp, h, hx⟩
      · exact Or.inl (by simp [hx])
    · simp [h] at hx
      rcases hx with hx | hx
      · exact Or.inl (by simp [hx])
      · rcases ih hx with h1 | ⟨y, hy, hpy, hxy⟩
        · exact Or.inl (by simp [h1])
        · exact Or.inr ⟨y, by simp [hy], hpy, hxy⟩

theorem updateFirst_map_of_preserve (p : α → Bool) (f : α → α) (g : α → β)
    (hf : ∀ x, g (f x) = g x) (l : List α) :
    (updateFirst p f l).map g = l.map g := by
  induction l with
  | nil => rfl
  | cons a as ih =>
    unfold updateFirst
    by_cases h : p a
    · simp [h, hf]
    · simp [h, ih]

theorem updateFirst_eq_map (p : α → Bool) (f : α → α) (l : List α)
    (hcount : l.countP p ≤ 1) :
    updateFirst p f l = l.map (fun x => if p x then f x else x) := by
  induction l with
  | nil => rfl
  | cons a as ih =>
    unfold updateFirst
    by_cases h : p a
    · have hzero : as.countP p = 0 := by
        rw [List.countP_cons, if_pos h] at hcount
        omega
      have hnone : ∀ y ∈ as, ¬ p y = true := List.countP_eq_zero.mp hzero
      have hmap : as.map (fun x => if p x then f x else x) = as := by
        have : as.map (fun x => if p x then f x else x) = as.map id := by
          apply List.map_congr_left
          intro y hy
          simp [hnone y hy]
        simpa using this
      simp [h, hmap]
    · have hcount2 : as.countP p ≤ 1 := by
        rw [List.countP_cons, if_neg h] at hcount
        omega
      simp [h, ih hcount2]

theorem updateFirst_exists_mem (p : α → Bool) (f : α → α) (l : List α)
    (hex : ∃ x ∈ l, p x = true) :
    ∃ x ∈ l, p x = true ∧ f x ∈ updateFirst p f l := by
  induction l with
  | nil => simp at hex
  | cons a as ih =>
    by_cases h : p a
    · exact ⟨a, by simp, h, by unfold updateFirst; simp [h]⟩
    · have hex2 : ∃ x ∈ as, p x = true := by
        rcases hex with ⟨x, hx, hpx⟩
        rcases List.mem_cons.mp hx with rfl | hx2
        · exact absurd hpx (by simp [h])
        · exact ⟨x, hx2, hpx⟩
      rcases ih hex2 with ⟨x, hx, hpx, hmem⟩
      exact ⟨x, by simp [hx], hpx, by unfold updateFirst; simp [h, hmem]⟩

theorem countP_le_one_of_nodup_map (g : α → β) [DecidableEq β] (l : List α)
    (hnd : (l.map g).Nodup) (b : β) :
    l.countP (fun x => decide (g x = b)) ≤ 1 := by
  induction l with
  | nil => simp
  | cons a as ih =>
    simp only [List.map_cons, List.nodup_cons] at hnd
    rw [List.countP_cons]
    by_cases h : g a = b
    · have hzero : as.countP (fun x => decide (g x = b)) = 0 := by
        apply List.countP_eq_zero.mpr
        intro y hy
        simp only [decide_eq_true_eq]
        intro hgy
        exact hnd.1 (by rw [h, ← hgy]; exact List.mem_map_of_mem g hy)
      simp [hzero, h]
    · have hle := ih hnd.2
      simp only [h, decide_eq_true_eq, if_neg, decide_eq_false_iff_not]
      simp [h]
      omega

theorem dropWhile_idem (p : α → Bool) (l : List α) :
    (l.dropWhile p).dropWhile p = l.dropWhile p := by
  induction l with
  | nil => rfl
  | cons a as ih =>
    rw [List.dropWhile_cons]
    by_cases h : p a
    · simp [h, ih]
    · simp [h, List.dropWhile_cons]

theorem dropWhile_eq_self_of_eq_self_of_head (p : α → Bool) (c : α) (rest l2 : List α)
    (h : (c :: (rest ++ l2)).dropWhile p = c :: (rest ++ l2)) :
    (c :: rest).dropWhile p = c :: rest := by
  have hc : ¬ p c = true := by
    intro hp
    rw [List.dropWhile_cons, if_pos hp] at h
    have := ((rest ++ l2).dropWhile_sublist p).length_le
    rw [h] at this
    simp at this
  rw [List.dropWhile_cons, if_neg hc]

theorem trimmed_pyStrip (s : String) : Trimmed (pyStrip s) := by
  have hdata : (pyStrip s).data =
      ((s.data.dropWhile isSpc).reverse.dropWhile isSpc).reverse := rfl
  constructor
  · rw [hdata]
    set t := s.data.dropWhile isSpc with ht
    have htt : t.dropWhile isSpc = t := dropWhile_idem isSpc s.data
    have hsplit : t.reverse.takeWhile isSpc ++ t.reverse.dropWhile isSpc = t.reverse :=
      List.takeWhile_append_dropWhile isSpc t.reverse
    set d := t.reverse.dropWhile isSpc with hd
    set w := t.reverse.takeWhile isSpc with hw
    have htw : t = d.reverse ++ w.reverse := by
      have h2 : (w ++ d).reverse = t := by rw [hsplit, List.reverse_reverse]
      rw [← h2, List.reverse_append]
    cases hdr : d.reverse with
    | nil => rfl
    | cons c cs =>
      have hct : t.dropWhile isSpc = t := htt
      rw [htw, hdr] at hct
      have hcons : ((c :: cs) ++ w.reverse) = c :: (cs ++ w.reverse) := by simp
      rw [hcons] at hct
      exact dropWhile_eq_self_of_eq_self_of_head isSpc c cs w.reverse hct
  · rw [hdata, List.reverse_reverse]
    exact dropWhile_idem isSpc (s.data.dropWhile isSpc).reverse

theorem goodDesc_pyStrip (s : String) (h : pyStrip s ≠ "") :
    GoodDesc (pyStrip s) :=
  ⟨trimmed_pyStrip s, h⟩

theorem daysInMonth_pos (y m : Nat) (h1 : 1 ≤ m) (h2 : m ≤ 12) :
    1 ≤ daysInMonth y m := by
  unfold daysInMonth mdays
  interval_cases m <;> simp <;> split_ifs <;> omega

/-- C5: for every valid `YYYY-MM` token the date-range resolver returns
the first and last calendar day of the month, with the last day taken
from the month's actual day count including leap years; any token whose
parse yields `(y, m)` resolves through the same date construction, and
in particular `"2024-02"` resolves to `(2024-02-01, 2024-02-29)` while
`"2023-02"` resolves to `(2023-02-01, 2023-02-28)`. -/
theorem C5_month_bounds_resolver :
    (∀ y m : Int, 1 ≤ y → y ≤ 9999 → 1 ≤ m → m ≤ 12 →
      monthBoundsYM y m = some (⟨y.toNat, m.toNat, 1⟩,
        ⟨y.toNat, m.toNat, daysInMonth y.toNat m.toNat⟩)) ∧
    (∀ s : String, ∀ y m : Int, parseMonthToken s = some (y, m) →
      monthBounds s = monthBoundsYM y m) ∧
    monthBounds "2024-02" = some (⟨2024, 2, 1⟩, ⟨2024, 2, 29⟩) ∧
    monthBounds "2023-02" = some (⟨2023, 2, 1⟩, ⟨2023, 2, 28⟩) := by
  refine ⟨?_, ?_, by decide, by decide⟩
  · intro y m hy1 hy2 hm1 hm2
    have hd1 : 1 ≤ daysInMonth y.toNat m.toNat :=
      daysInMonth_pos _ _ (by omega) (by omega)
    have hd1i : (1 : Int) ≤ (daysInMonth y.toNat m.toNat : Int) := by exact_mod_cast hd1
    have e1 : mkDate? y m 1 = some ⟨y.toNat, m.toNat, 1⟩ := by
      unfold mkDate?
      rw [if_pos ⟨hy1, hy2, hm1, hm2, le_refl 1, hd1i⟩]
      rfl
    have e2 : monthrangeDays? y m = some (daysInMonth y.toNat m.toNat : Int) := by
      unfold monthrangeDays?
      rw [if_pos ⟨hm1, hm2⟩]
    have e3 : mkDate? y m (daysInMonth y.toNat m.toNat : Int) =
        some ⟨y.toNat, m.toNat, daysInMonth y.toNat m.toNat⟩ := by
      unfold mkDate?
      rw [if_pos ⟨hy1, hy2, hm1, hm2, hd1i, le_refl _⟩]
      simp
    unfold monthBoundsYM
    rw [e1]
    simp only [Option.bind_eq_bind, Option.some_bind]
    rw [e2]
    simp only [Option.some_bind]
    rw [e3]
    rfl
  · intro s y m h
    unfold monthBounds
    rw [h]

theorem C5_month_bounds_witness :
    monthBoundsYM 2024 2 = some (⟨2024, 2, 1⟩, ⟨2024, 2, 29⟩) := by
  rw [C5_month_bounds_resolver.1 2024 2 (by decide) (by decide) (by decide) (by decide)]
  decide

theorem fmt2_zero : fmt2 0 = "0.00" := by
  have h : roundHalfEven (|(0 : ℚ)| * 100) = 0 := by norm_num [roundHalfEven]
  rw [fmt2]
  rw [h]
  norm_num [pad2]
  rfl

/-- C6 (amended): for every malformed or out-of-range month token, all
three consumers of the resolver — the summary page, the summary CSV
export and the monthly PDF — fall back to the current month; the
summary page flashes a non-fatal notice, but the CSV and PDF routes
fall back silently with no notice. -/
theorem C6_month_fallback :
    ∀ (tok : String) (today : Date) (b : Date × Date),
      monthBounds tok = none →
      monthBounds (formatMonth today) = some b →
      resolveSummaryMonth tok today = some (formatMonth today, b, true) ∧
      resolveExportMonth tok today = some (formatMonth today, b, false) ∧
      resolvePdfMonth tok today = some (formatMonth today, b, false) := by
  intro tok today b h1 h2
  unfold resolveSummaryMonth resolveExportMonth resolvePdfMonth
  rw [h1, h2]
  exact ⟨rfl, rfl, rfl⟩

theorem C6_month_fallback_witness :
    resolveSummaryMonth "garbage" ⟨2025, 10, 12⟩ =
      some ("2025-10", (⟨2025, 10, 1⟩, ⟨2025, 10, 31⟩), true) ∧
    resolveExportMonth "garbage" ⟨2025, 10, 12⟩ =
      some ("2025-10", (⟨2025, 10, 1⟩, ⟨2025, 10, 31⟩), false) ∧
    resolvePdfMonth "garbage" ⟨2025, 10, 12⟩ =
      some ("2025-10", (⟨2025, 10, 1⟩, ⟨2025, 10, 31⟩), false) := by
  have hf : formatMonth ⟨2025, 10, 12⟩ = "2025-10" := by decide
  have h := C6_month_fallback "garbage" ⟨2025, 10, 12⟩
    (⟨2025, 10, 1⟩, ⟨2025, 10, 31⟩) (by decide) (by rw [hf]; decide)
  rw [hf] at h
  exact h

/-- C6 counterexample: the claim as stated is false — for the malformed
token `"garbage"` on 2025-10-12, the CSV-export and PDF callers do fall
back to the current month but surface no notice at all (the notice flag
of the resolution is `false`, whereas the claim requires a notice from
every caller). -/
theorem C6_export_no_notice :
    monthBounds "garbage" = none ∧
    resolveExportMonth "garbage" ⟨2025, 10, 12⟩ =
      some ("2025-10", (⟨2025, 10, 1⟩, ⟨2025, 10, 31⟩), false) ∧
    resolvePdfMonth "garbage" ⟨2025, 10, 12⟩ =
      some ("2025-10", (⟨2025, 10, 1⟩, ⟨2025, 10, 31⟩), false) := by
  exact ⟨by decide, by decide, by decide⟩

/-- C7 (amended): expense rows are ordered by `(expense_date ascending,
id ascending)` in the summary listing and the expenses CSV export (each
a permutation of the underlying row set), but the `/expenses` listing
page instead orders by `(expense_date descending, id descending)` and
truncates to the latest 150 rows. -/
theorem C7_expense_ordering :
    ∀ (db : DB) (s e : Date),
      List.Sorted expRowLe (summaryExpenseRows db s e) ∧
      (summaryExpenseRows db s e).Perm
        (db.expenses.filter (fun r => dateInRange r.expense_date s e)) ∧
      List.Sorted expRowLe (exportExpensesRows db) ∧
      (exportExpensesRows db).Perm db.expenses ∧
      List.Sorted expRowGe (expensesListing db) ∧
      expensesListing db = (List.insertionSort expRowGe db.expenses).take 150 := by
  intro db s e
  refine ⟨List.sorted_insertionSort _ _, List.perm_insertionSort _ _,
    List.sorted_insertionSort _ _, List.perm_insertionSort _ _, ?_, rfl⟩
  exact List.Pairwise.sublist (List.take_sublist 150 _) (List.sorted_insertionSort _ _)

/-- C7 counterexample: the claim as stated is false — on a database
with two expenses on consecutive days, the `/expenses` listing page
returns them newest-first, not in `(expense_date ascending, id
ascending)` order. -/
theorem C7_listing_not_ascending :
    expensesListing ⟨[], [⟨1, ⟨2024, 1, 1⟩, "rent", 5⟩, ⟨2, ⟨2024, 1, 2⟩, "ice", 3⟩], 1, 3⟩ =
      [⟨2, ⟨2024, 1, 2⟩, "ice", 3⟩, ⟨1, ⟨2024, 1, 1⟩, "rent", 5⟩] ∧
    ¬ List.Sorted expRowLe
      (expensesListing ⟨[], [⟨1, ⟨2024, 1, 1⟩, "rent", 5⟩, ⟨2, ⟨2024, 1, 2⟩, "ice", 3⟩], 1, 3⟩) := by
  exact ⟨by decide, by decide⟩

/-- C8: for every date range containing no sale rows and no expense
rows, the monthly-close document's summary table shows all four amounts
as `0.00`, its sales table is the header plus exactly the placeholder
row `"-","-","0.00","0.00"`, and its expenses table is the header plus
exactly the placeholder row `"-","-","0.00"`. -/
theorem C8_empty_range_tables :
    ∀ (db : DB) (s e : Date),
      db.sales.filter (fun r => dateInRange r.sale_date s e) = [] →
      db.expenses.filter (fun r => dateInRange r.expense_date s e) = [] →
      pdfSummaryTable db s e =
        [["Total Sales", "0.00"], ["Total Expenses", "0.00"],
         ["Total Daily Profit", "0.00"], ["Net Profit", "0.00"]] ∧
      pdfSalesTable db s e =
        [["Date", "Day", "Total Sales", "Daily Profit"], ["-", "-", "0.00", "0.00"]] ∧
      pdfExpensesTable db s e =
        [["Date", "Description", "Amount"], ["-", "-", "0.00"]] := by
  intro db s e hs he
  have hts : totalSalesAgg db s e = 0 := by unfold totalSalesAgg; rw [hs]; rfl
  have htp : totalProfitAgg db s e = 0 := by unfold totalProfitAgg; rw [hs]; rfl
  have hte : totalExpensesAgg db s e = 0 := by unfold totalExpensesAgg; rw [he]; rfl
  have hnp : netProfitAgg db s e = 0 := by unfold netProfitAgg; rw [htp, hte]; ring
  have hsr : summarySalesRows db s e = [] := by unfold summarySalesRows; rw [hs]; rfl
  have her : summaryExpenseRows db s e = [] := by unfold summaryExpenseRows; rw [he]; rfl
  refine ⟨?_, ?_, ?_⟩
  · unfold pdfSummaryTable
    rw [hts, htp, hte, hnp, fmt2_zero]
  · unfold pdfSalesTable
    rw [hsr]
    rfl
  · unfold pdfExpensesTable
    rw [her]
    rfl

/-- C2: for every date range and database state, each aggregate of the
summary equals the sum of the corresponding field over the rows the
summary individually lists for the same range, net profit is profit
minus expenses, and an empty range yields 0 (coalesce-to-zero), never
absence. -/
theorem C2_aggregate_consistent :
    ∀ (db : DB) (s e : Date),
      totalSalesAgg db s e =
        ((summarySalesRows db s e).map (fun r => r.total_sales)).sum ∧
      totalProfitAgg db s e =
        ((summarySalesRows db s e).map (fun r => r.daily_profit)).sum ∧
      totalExpensesAgg db s e =
        ((summaryExpenseRows db s e).map (fun r => r.amount)).sum ∧
      netProfitAgg db s e = totalProfitAgg db s e - totalExpensesAgg db s e ∧
      (db.sales.filter (fun r => dateInRange r.sale_date s e) = [] →
        totalSalesAgg db s e = 0 ∧ totalProfitAgg db s e = 0) ∧
      (db.expenses.filter (fun r => dateInRange r.expense_date s e) = [] →
        totalExpensesAgg db s e = 0) := by
  intro db s e
  refine ⟨?_, ?_, ?_, rfl, ?_, ?_⟩
  · unfold totalSalesAgg summarySalesRows
    rw [coalesce_sqlSum]
    exact (((List.perm_insertionSort saleRowLe _).map (fun r => r.total_sales)).sum_eq).symm
  · unfold totalProfitAgg summarySalesRows
    rw [coalesce_sqlSum]
    exact (((List.perm_insertionSort saleRowLe _).map (fun r => r.daily_profit)).sum_eq).symm
  · unfold totalExpensesAgg summaryExpenseRows
    rw [coalesce_sqlSum]
    exact (((List.perm_insertionSort expRowLe _).map (fun r => r.amount)).sum_eq).symm
  · intro h
    constructor
    · unfold totalSalesAgg
      rw [h]
      rfl
    · unfold totalProfitAgg
      rw [h]
      rfl
  · intro h
    unfold totalExpensesAgg
    rw [h]
    rfl

theorem C2_aggregate_consistent_witness :
    totalSalesAgg emptyDB ⟨2024, 1, 1⟩ ⟨2024, 1, 31⟩ = 0 ∧
    totalProfitAgg emptyDB ⟨2024, 1, 1⟩ ⟨2024, 1, 31⟩ = 0 ∧
    totalExpensesAgg emptyDB ⟨2024, 1, 1⟩ ⟨2024, 1, 31⟩ = 0 :=
  ⟨((C2_aggregate_consistent emptyDB ⟨2024, 1, 1⟩ ⟨2024, 1, 31⟩).2.2.2.2.1 rfl).1,
   ((C2_aggregate_consistent emptyDB ⟨2024, 1, 1⟩ ⟨2024, 1, 31⟩).2.2.2.2.1 rfl).2,
   (C2_aggregate_consistent emptyDB ⟨2024, 1, 1⟩ ⟨2024, 1, 31⟩).2.2.2.2.2 rfl⟩

/-- C9: the persistence layer reads and writes
`DATA_DIR/barbook.db` (with `DATA_DIR` defaulting to `BASE_DIR/data`),
but the `/backup/db` route serves the fixed path `BASE_DIR/barbook.db`;
under the default configuration these never coincide, so the backup
route does not serve the data-store file the application uses.  This
contradicts the route's own purpose and its error message (which says
to run the app and add entries — doing so still never creates the
served path). -/
theorem C9_backup_path_mismatch :
    dbPath "/app" none = "/app/data/barbook.db" ∧
    backupServedPath "/app" = "/app/barbook.db" ∧
    (∀ baseDir : String,
      (backupServedPath baseDir == dbPath baseDir none) = false) := by
  refine ⟨rfl, rfl, ?_⟩
  intro baseDir
  rw [beq_eq_false_iff_ne]
  intro h
  have hl := congrArg String.length h
  have l1 : ("/" : String).length = 1 := rfl
  have l2 : ("barbook.db" : String).length = 10 := rfl
  have l3 : ("data" : String).length = 4 := rfl
  simp only [backupServedPath, dbPath, dataDir, ospJoin, Option.getD,
    String.length_append, l1, l2, l3] at hl
  omega

theorem C8_empty_range_tables_witness :
    pdfSummaryTable emptyDB ⟨2024, 1, 1⟩ ⟨2024, 1, 31⟩ =
      [["Total Sales", "0.00"], ["Total Expenses", "0.00"],
       ["Total Daily Profit", "0.00"], ["Net Profit", "0.00"]] ∧
    pdfSalesTable emptyDB ⟨2024, 1, 1⟩ ⟨2024, 1, 31⟩ =
      [["Date", "Day", "Total Sales", "Daily Profit"], ["-", "-", "0.00", "0.00"]] ∧
    pdfExpensesTable emptyDB ⟨2024, 1, 1⟩ ⟨2024, 1, 31⟩ =
      [["Date", "Description", "Amount"], ["-", "-", "0.00"]] :=
  C8_empty_range_tables emptyDB ⟨2024, 1, 1⟩ ⟨2024, 1, 31⟩ rfl rfl


theorem salesPost_insert_eq (db : DB) (d : Date) (ts dp : ℚ)
    (hts : 0 ≤ ts) (hdp : 0 ≤ dp)
    (hnone : db.sales.find? (fun r => decide (r.sale_date = d)) = none) :
    salesPost db d ts dp = Except.ok { db with
      sales := db.sales ++ [⟨db.nextSaleId, d, ts, dp⟩],
      nextSaleId := db.nextSaleId + 1 } := by
  unfold salesPost
  rw [if_neg (not_or.mpr ⟨not_lt.mpr hts, not_lt.mpr hdp⟩), hnone]

theorem salesPost_update_eq (db : DB) (d : Date) (ts dp : ℚ)
    (hts : 0 ≤ ts) (hdp : 0 ≤ dp) (hnd : salesDatesNodup db)
    (hex : ∃ r ∈ db.sales, r.sale_date = d) :
    salesPost db d ts dp = Except.ok { db with
      sales := db.sales.map (fun r => if r.sale_date = d then
        { r with total_sales := ts, daily_profit := dp } else r) } := by
  have hsome : (db.sales.find? (fun r => decide (r.sale_date = d))).isSome = true := by
    apply List.find?_isSome.mpr
    obtain ⟨r, hr, hrd⟩ := hex
    exact ⟨r, hr, by simp [hrd]⟩
  obtain ⟨r0, hr0⟩ := Option.isSome_iff_exists.mp hsome
  unfold salesPost
  rw [if_neg (not_or.mpr ⟨not_lt.mpr hts, not_lt.mpr hdp⟩), hr0]
  have hcle : db.sales.countP (fun r => decide (r.sale_date = d)) ≤ 1 :=
    countP_le_one_of_nodup_map (fun r : DailySale => r.sale_date) db.sales hnd d
  have h1 : updateFirst (fun r => decide (r.sale_date = d))
      (fun r => { r with total_sales := ts, daily_profit := dp }) db.sales =
      db.sales.map (fun x => if decide (x.sale_date = d) = true then
        { x with total_sales := ts, daily_profit := dp } else x) :=
    updateFirst_eq_map _ _ _ hcle
  rw [h1]
  have h2 : db.sales.map (fun x => if decide (x.sale_date = d) = true then
      { x with total_sales := ts, daily_profit := dp } else x) =
      db.sales.map (fun r => if r.sale_date = d then
        { r with total_sales := ts, daily_profit := dp } else r) := by
    apply List.map_congr_left
    intro x _
    by_cases hc : x.sale_date = d
    · simp [hc]
    · simp [hc]
  rw [h2]

theorem salesPost_nodup_count (db : DB) (d : Date) (ts dp : ℚ) (db2 : DB)
    (hnd : salesDatesNodup db) (h : salesPost db d ts dp = Except.ok db2) :
    salesDatesNodup db2 ∧ (db2.sales.map (fun r => r.sale_date)).count d = 1 := by
  unfold salesPost at h
  by_cases hv : ts < 0 ∨ dp < 0
  · rw [if_pos hv] at h
    exact absurd h (by simp)
  · rw [if_neg hv] at h
    cases hfind : db.sales.find? (fun r => decide (r.sale_date = d)) with
    | none =>
      rw [hfind] at h
      injection h with h2
      subst h2
      have hnotmem : d ∉ db.sales.map (fun r => r.sale_date) := by
        intro hmem
        obtain ⟨r, hr, hrd⟩ := List.mem_map.mp hmem
        exact (List.find?_eq_none.mp hfind r hr) (by simp [hrd])
      constructor
      · show (((db.sales ++ ([⟨db.nextSaleId, d, ts, dp⟩] : List DailySale)).map (fun r => r.sale_date))).Nodup
        rw [List.map_append, List.nodup_append]
        refine ⟨hnd, List.nodup_singleton _, ?_⟩
        intro x hx hx2
        simp at hx2
        subst hx2
        exact hnotmem hx
      · show (((db.sales ++ ([⟨db.nextSaleId, d, ts, dp⟩] : List DailySale)).map (fun r => r.sale_date))).count d = 1
        rw [List.map_append, List.count_append]
        have hz : (db.sales.map (fun r => r.sale_date)).count d = 0 :=
          List.count_eq_zero.mpr hnotmem
        simp [hz]
    | some r0 =>
      rw [hfind] at h
      injection h with h2
      subst h2
      have hmap : ((updateFirst (fun r => decide (r.sale_date = d))
          (fun r => { r with total_sales := ts, daily_profit := dp }) db.sales).map
            (fun r => r.sale_date)) = db.sales.map (fun r => r.sale_date) :=
        updateFirst_map_of_preserve (fun r : DailySale => decide (r.sale_date = d))
          (fun r : DailySale => { r with total_sales := ts, daily_profit := dp })
          (fun r : DailySale => r.sale_date) (fun x => rfl) db.sales
      constructor
      · show ((updateFirst (fun r => decide (r.sale_date = d))
            (fun r => { r with total_sales := ts, daily_profit := dp }) db.sales).map
              (fun r => r.sale_date)).Nodup
        rw [hmap]
        exact hnd
      · show ((updateFirst (fun r => decide (r.sale_date = d))
            (fun r => { r with total_sales := ts, daily_profit := dp }) db.sales).map
              (fun r => r.sale_date)).count d = 1
        rw [hmap]
        have hr0mem := List.mem_of_find?_eq_some hfind
        have hr0d : r0.sale_date = d := by simpa using List.find?_some hfind
        have hmem : d ∈ db.sales.map (fun r => r.sale_date) :=
          List.mem_map.mpr ⟨r0, hr0mem, hr0d⟩
        have hle := (List.nodup_iff_count_le_one.mp hnd) d
        have hpos := List.count_pos_iff.mpr hmem
        omega

theorem applySaleOp_nodup (db : DB) (op : Date × ℚ × ℚ)
    (hnd : salesDatesNodup db) : salesDatesNodup (applySaleOp db op) := by
  unfold applySaleOp
  cases h : salesPost db op.1 op.2.1 op.2.2 with
  | ok db2 => exact (salesPost_nodup_count _ _ _ _ _ hnd h).1
  | error m => exact hnd

theorem applySaleOps_nodup (db : DB) (ops : List (Date × ℚ × ℚ))
    (hnd : salesDatesNodup db) : salesDatesNodup (applySaleOps db ops) := by
  induction ops generalizing db with
  | nil => exact hnd
  | cons op rest ih =>
    unfold applySaleOps
    simp only [List.foldl_cons]
    exact ih _ (applySaleOp_nodup db op hnd)


/-- C1: posting a sale for a date with no existing row appends a new
row; posting again for the same date overwrites `total_sales` and
`daily_profit` of the existing row in place; every successful post
leaves exactly one row for the posted date, and any sequence of sale
upsert requests starting from the empty database keeps `sale_date`
unique across the table. -/
theorem C1_sales_upsert_unique :
    (∀ (db : DB) (d : Date) (ts dp : ℚ), 0 ≤ ts → 0 ≤ dp →
      db.sales.find? (fun r => decide (r.sale_date = d)) = none →
      salesPost db d ts dp = Except.ok { db with
        sales := db.sales ++ [⟨db.nextSaleId, d, ts, dp⟩],
        nextSaleId := db.nextSaleId + 1 }) ∧
    (∀ (db : DB) (d : Date) (ts dp : ℚ), 0 ≤ ts → 0 ≤ dp → salesDatesNodup db →
      (∃ r ∈ db.sales, r.sale_date = d) →
      salesPost db d ts dp = Except.ok { db with
        sales := db.sales.map (fun r => if r.sale_date = d then
          { r with total_sales := ts, daily_profit := dp } else r) }) ∧
    (∀ (db : DB) (d : Date) (ts dp : ℚ) (db2 : DB), salesDatesNodup db →
      salesPost db d ts dp = Except.ok db2 →
      salesDatesNodup db2 ∧ (db2.sales.map (fun r => r.sale_date)).count d = 1) ∧
    (∀ (db : DB) (ops : List (Date × ℚ × ℚ)), salesDatesNodup db →
      salesDatesNodup (applySaleOps db ops)) ∧
    (∀ ops : List (Date × ℚ × ℚ), salesDatesNodup (applySaleOps emptyDB ops)) :=
  ⟨fun db d ts dp h1 h2 h3 => salesPost_insert_eq db d ts dp h1 h2 h3,
   fun db d ts dp h1 h2 h3 h4 => salesPost_update_eq db d ts dp h1 h2 h3 h4,
   fun db d ts dp db2 h1 h2 => salesPost_nodup_count db d ts dp db2 h1 h2,
   fun db ops h => applySaleOps_nodup db ops h,
   fun ops => applySaleOps_nodup emptyDB ops (by simp [salesDatesNodup, emptyDB])⟩

theorem C1_sales_upsert_unique_witness :
    salesPost emptyDB ⟨2024, 1, 5⟩ 100 40 =
      Except.ok ⟨[⟨1, ⟨2024, 1, 5⟩, 100, 40⟩], [], 2, 1⟩ ∧
    salesPost ⟨[⟨1, ⟨2024, 1, 5⟩, 100, 40⟩], [], 2, 1⟩ ⟨2024, 1, 5⟩ 120 50 =
      Except.ok ⟨[⟨1, ⟨2024, 1, 5⟩, 120, 50⟩], [], 2, 1⟩ := by
  constructor
  · have h := C1_sales_upsert_unique.1 emptyDB ⟨2024, 1, 5⟩ 100 40
      (by decide) (by decide) rfl
    rw [h]
    rfl
  · have h := C1_sales_upsert_unique.2.1 ⟨[⟨1, ⟨2024, 1, 5⟩, 100, 40⟩], [], 2, 1⟩
      ⟨2024, 1, 5⟩ 120 50 (by decide) (by decide)
      (by unfold salesDatesNodup; decide)
      ⟨⟨1, ⟨2024, 1, 5⟩, 100, 40⟩, by decide, rfl⟩
    rw [h]
    rfl



/-- C3: if another sale row (different id) already owns the target
date, the sale-edit POST fails with the conflict error and — via the
rollback of the route's except branch — leaves the database state, and
hence both records' fields, unchanged.  (With negative amounts the
validation error fires first; the state is equally unchanged.) -/
theorem C3_edit_sale_conflict :
    ∀ (db : DB) (sale_id : Nat) (d : Date) (ts dp : ℚ) (sale other : DailySale),
      db.sales.find? (fun r => decide (r.id = sale_id)) = some sale →
      other ∈ db.sales → other.sale_date = d → other.id ≠ sale.id →
      (runEditSale db sale_id d ts dp).1 = db ∧
      (0 ≤ ts → 0 ≤ dp →
        editSale db sale_id d ts dp =
          Except.error "Another sale entry already exists for that date.") := by
  intro db sale_id d ts dp sale other hfind hmem hdate hid
  have hconf : (db.sales.find? (fun r =>
      decide (r.sale_date = d) && decide (r.id ≠ sale.id))).isSome = true := by
    apply List.find?_isSome.mpr
    exact ⟨other, hmem, by simp [hdate, hid]⟩
  have herr : ∀ hv : ¬ (ts < 0 ∨ dp < 0),
      editSale db sale_id d ts dp =
        Except.error "Another sale entry already exists for that date." := by
    intro hv
    simp only [editSale, hfind]
    rw [if_neg hv, if_pos hconf]
  constructor
  · unfold runEditSale
    by_cases hv : ts < 0 ∨ dp < 0
    · have hval : editSale db sale_id d ts dp =
          Except.error "Values must be non-negative." := by
        simp only [editSale, hfind]
        rw [if_pos hv]
      rw [hval]
    · rw [herr hv]
  · intro hts hdp
    exact herr (not_or.mpr ⟨not_lt.mpr hts, not_lt.mpr hdp⟩)


/-- C4: a negative `total_sales`, `daily_profit` or `amount` is
rejected with a validation error (and, the result being an error, the
route rolls back so no state changes), while non-negative amounts —
zero included — are accepted and persisted, for the sales upsert, the
sale edit, the expense create and the expense edit. -/
theorem C4_nonnegative_validation :
    (∀ (db : DB) (d : Date) (ts dp : ℚ), (ts < 0 ∨ dp < 0) →
      salesPost db d ts dp = Except.error "Values must be non-negative.") ∧
    (∀ (db : DB) (sale_id : Nat) (d : Date) (ts dp : ℚ) (sale : DailySale),
      db.sales.find? (fun r => decide (r.id = sale_id)) = some sale →
      (ts < 0 ∨ dp < 0) →
      editSale db sale_id d ts dp = Except.error "Values must be non-negative.") ∧
    (∀ (db : DB) (d : Date) (desc : String) (amt : ℚ), pyStrip desc ≠ "" → amt < 0 →
      expensesPost db d desc amt = Except.error "Amount must be non-negative.") ∧
    (∀ (db : DB) (i : Nat) (d : Date) (desc : String) (amt : ℚ) (e0 : Expense),
      db.expenses.find? (fun r => decide (r.id = i)) = some e0 →
      pyStrip desc ≠ "" → amt < 0 →
      editExpense db i d desc amt = Except.error "Amount must be non-negative.") ∧
    (∀ (db : DB) (d : Date) (ts dp : ℚ), 0 ≤ ts → 0 ≤ dp →
      ∃ db2, salesPost db d ts dp = Except.ok db2 ∧
        ∃ r ∈ db2.sales, r.sale_date = d ∧ r.total_sales = ts ∧ r.daily_profit = dp) ∧
    (∀ (db : DB) (d : Date) (desc : String) (amt : ℚ), pyStrip desc ≠ "" → 0 ≤ amt →
      expensesPost db d desc amt = Except.ok { db with
        expenses := db.expenses ++ [⟨db.nextExpenseId, d, pyStrip desc, amt⟩],
        nextExpenseId := db.nextExpenseId + 1 }) ∧
    (∀ (db : DB) (i : Nat) (d : Date) (desc : String) (amt : ℚ) (e0 : Expense),
      db.expenses.find? (fun r => decide (r.id = i)) = some e0 →
      pyStrip desc ≠ "" → 0 ≤ amt →
      ∃ db2, editExpense db i d desc amt = Except.ok db2 ∧
        ∃ r ∈ db2.expenses, r.id = i ∧ r.expense_date = d ∧
          r.description = pyStrip desc ∧ r.amount = amt) ∧
    (∀ (db : DB) (sale_id : Nat) (d : Date) (ts dp : ℚ) (sale : DailySale),
      db.sales.find? (fun r => decide (r.id = sale_id)) = some sale →
      db.sales.find? (fun r => decide (r.sale_date = d) && decide (r.id ≠ sale.id)) = none →
      0 ≤ ts → 0 ≤ dp →
      ∃ db2, editSale db sale_id d ts dp = Except.ok db2 ∧
        ∃ r ∈ db2.sales, r.id = sale_id ∧ r.sale_date = d ∧
          r.total_sales = ts ∧ r.daily_profit = dp) := by
  refine ⟨?_, ?_, ?_, ?_, ?_, ?_, ?_, ?_⟩
  · intro db d ts dp hv
    unfold salesPost
    rw [if_pos hv]
  · intro db sale_id d ts dp sale hfind hv
    simp only [editSale, hfind]
    rw [if_pos hv]
  · intro db d desc amt hdesc hamt
    unfold expensesPost
    rw [if_neg hdesc, if_pos hamt]
  · intro db i d desc amt e0 hfind hdesc hamt
    simp only [editExpense, hfind]
    rw [if_neg hdesc, if_pos hamt]
  · intro db d ts dp hts hdp
    have hv : ¬ (ts < 0 ∨ dp < 0) := not_or.mpr ⟨not_lt.mpr hts, not_lt.mpr hdp⟩
    cases hf : db.sales.find? (fun r => decide (r.sale_date = d)) with
    | none =>
      refine ⟨_, salesPost_insert_eq db d ts dp hts hdp hf, ?_⟩
      exact ⟨⟨db.nextSaleId, d, ts, dp⟩, by simp, rfl, rfl, rfl⟩
    | some r0 =>
      have hm0 := List.mem_of_find?_eq_some hf
      have hp0 := List.find?_some hf
      have hex : ∃ x ∈ db.sales, (fun r => decide (r.sale_date = d)) x = true :=
        ⟨r0, hm0, hp0⟩
      obtain ⟨x, hxmem, hpx, hfx⟩ := updateFirst_exists_mem
        (fun r => decide (r.sale_date = d))
        (fun r => { r with total_sales := ts, daily_profit := dp }) db.sales hex
      refine ⟨{ db with sales := updateFirst (fun r => decide (r.sale_date = d)) (fun r => { r with total_sales := ts, daily_profit := dp }) db.sales }, ?_, ?_⟩
      · unfold salesPost
        rw [if_neg hv, hf]
      · refine ⟨{ x with total_sales := ts, daily_profit := dp }, hfx, ?_, rfl, rfl⟩
        simpa using hpx
  · intro db d desc amt hdesc hamt
    unfold expensesPost
    rw [if_neg hdesc, if_neg (not_lt.mpr hamt)]
  · intro db i d desc amt e0 hfind hdesc hamt
    have hm0 := List.mem_of_find?_eq_some hfind
    have hp0 := List.find?_some hfind
    have hex : ∃ x ∈ db.expenses, (fun r => decide (r.id = i)) x = true :=
      ⟨e0, hm0, hp0⟩
    obtain ⟨x, hxmem, hpx, hfx⟩ := updateFirst_exists_mem
      (fun r => decide (r.id = i))
      (fun r => { r with expense_date := d, description := pyStrip desc,
                         amount := amt }) db.expenses hex
    refine ⟨{ db with expenses := updateFirst (fun r => decide (r.id = i)) (fun r => { r with expense_date := d, description := pyStrip desc, amount := amt }) db.expenses }, ?_, ?_⟩
    · simp only [editExpense, hfind]
      rw [if_neg hdesc, if_neg (not_lt.mpr hamt)]
    · refine ⟨{ x with expense_date := d, description := pyStrip desc, amount := amt },
        hfx, ?_, rfl, rfl, rfl⟩
      simpa using hpx
  · intro db sale_id d ts dp sale hfind hnoconf hts hdp
    have hv : ¬ (ts < 0 ∨ dp < 0) := not_or.mpr ⟨not_lt.mpr hts, not_lt.mpr hdp⟩
    have hm0 := List.mem_of_find?_eq_some hfind
    have hp0 := List.find?_some hfind
    have hex : ∃ x ∈ db.sales, (fun r => decide (r.id = sale_id)) x = true :=
      ⟨sale, hm0, hp0⟩
    obtain ⟨x, hxmem, hpx, hfx⟩ := updateFirst_exists_mem
      (fun r => decide (r.id = sale_id))
      (fun r => { r with sale_date := d, total_sales := ts,
                         daily_profit := dp }) db.sales hex
    refine ⟨{ db with sales := updateFirst (fun r => decide (r.id = sale_id)) (fun r => { r with sale_date := d, total_sales := ts, daily_profit := dp }) db.sales }, ?_, ?_⟩
    · simp only [editSale, hfind]
      rw [if_neg hv, if_neg (by rw [hnoconf]; simp)]
    · refine ⟨{ x with sale_date := d, total_sales := ts, daily_profit := dp },
        hfx, ?_, rfl, rfl, rfl⟩
      simpa using hpx


theorem expensesPost_inv (db : DB) (d : Date) (desc : String) (amt : ℚ) (db2 : DB)
    (hinv : expensesInv db) (h : expensesPost db d desc amt = Except.ok db2) :
    expensesInv db2 := by
  unfold expensesPost at h
  by_cases h1 : pyStrip desc = ""
  · rw [if_pos h1] at h
    exact absurd h (by simp)
  · rw [if_neg h1] at h
    by_cases h2 : amt < 0
    · rw [if_pos h2] at h
      exact absurd h (by simp)
    · rw [if_neg h2] at h
      injection h with h3
      subst h3
      intro r hr
      rcases List.mem_append.mp hr with hmem | hmem
      · exact hinv r hmem
      · have : r = ⟨db.nextExpenseId, d, pyStrip desc, amt⟩ := by simpa using hmem
        subst this
        exact goodDesc_pyStrip desc h1

theorem editExpense_inv (db : DB) (i : Nat) (d : Date) (desc : String) (amt : ℚ)
    (db2 : DB) (hinv : expensesInv db)
    (h : editExpense db i d desc amt = Except.ok db2) : expensesInv db2 := by
  unfold editExpense at h
  split at h
  · exact absurd h (by simp)
  · split at h
    · exact absurd h (by simp)
    · split at h
      · exact absurd h (by simp)
      · injection h with h3
        subst h3
        intro r hr
        rcases updateFirst_mem _ _ _ r hr with hmem | ⟨y, hy, hpy, hry⟩
        · exact hinv r hmem
        · subst hry
          have h1 : ¬ pyStrip desc = "" := by assumption
          exact goodDesc_pyStrip desc h1

theorem deleteExpense_inv (db : DB) (i : Nat) (db2 : DB) (hinv : expensesInv db)
    (h : deleteExpense db i = Except.ok db2) : expensesInv db2 := by
  unfold deleteExpense at h
  split at h
  · exact absurd h (by simp)
  · injection h with h3
    subst h3
    intro r hr
    exact hinv r ((List.eraseP_sublist db.expenses).subset hr)

theorem applyExpOp_inv (db : DB) (op : ExpOp) (hinv : expensesInv db) :
    expensesInv (applyExpOp db op) := by
  cases op with
  | create d desc amt =>
    simp only [applyExpOp]
    cases h : expensesPost db d desc amt with
    | ok db2 => exact expensesPost_inv db d desc amt db2 hinv h
    | error m => exact hinv
  | edit i d desc amt =>
    simp only [applyExpOp]
    cases h : editExpense db i d desc amt with
    | ok db2 => exact editExpense_inv db i d desc amt db2 hinv h
    | error m => exact hinv
  | del i =>
    simp only [applyExpOp]
    cases h : deleteExpense db i with
    | ok db2 => exact deleteExpense_inv db i db2 hinv h
    | error m => exact hinv

theorem applyExpOps_inv (db : DB) (ops : List ExpOp) (hinv : expensesInv db) :
    expensesInv (applyExpOps db ops) := by
  induction ops generalizing db with
  | nil => exact hinv
  | cons op rest ih =>
    unfold applyExpOps
    simp only [List.foldl_cons]
    exact ih _ (applyExpOp_inv db op hinv)

/-- C10: every Expense row ever persisted has a trimmed, non-empty
description: stripping always yields a string with no leading or
trailing whitespace, every expense-mutating operation preserves the
invariant, and any sequence of expense requests from the empty database
satisfies it. -/
theorem C10_expense_description_invariant :
    (∀ s : String, Trimmed (pyStrip s)) ∧
    (∀ (db : DB) (d : Date) (desc : String) (amt : ℚ) (db2 : DB), expensesInv db →
      expensesPost db d desc amt = Except.ok db2 → expensesInv db2) ∧
    (∀ (db : DB) (i : Nat) (d : Date) (desc : String) (amt : ℚ) (db2 : DB),
      expensesInv db → editExpense db i d desc amt = Except.ok db2 → expensesInv db2) ∧
    (∀ (db : DB) (i : Nat) (db2 : DB), expensesInv db →
      deleteExpense db i = Except.ok db2 → expensesInv db2) ∧
    (∀ ops : List ExpOp, expensesInv (applyExpOps emptyDB ops)) :=
  ⟨trimmed_pyStrip,
   fun db d desc amt db2 h1 h2 => expensesPost_inv db d desc amt db2 h1 h2,
   fun db i d desc amt db2 h1 h2 => editExpense_inv db i d desc amt db2 h1 h2,
   fun db i db2 h1 h2 => deleteExpense_inv db i db2 h1 h2,
   fun ops => applyExpOps_inv emptyDB ops (fun r hr => absurd hr (by simp [emptyDB]))⟩

theorem C10_expense_description_invariant_witness :
    Trimmed (pyStrip "  milk ") ∧
    expensesInv ⟨[], [⟨1, ⟨2024, 1, 1⟩, "milk", 3⟩], 1, 2⟩ :=
  ⟨C10_expense_description_invariant.1 "  milk ",
   C10_expense_description_invariant.2.1 emptyDB ⟨2024, 1, 1⟩ "  milk " 3 ⟨[], [⟨1, ⟨2024, 1, 1⟩, "milk", 3⟩], 1, 2⟩
     (fun r hr => absurd hr (by simp [emptyDB])) rfl⟩


theorem C3_edit_sale_conflict_witness :
    (runEditSale ⟨[⟨1, ⟨2024, 1, 1⟩, 10, 4⟩, ⟨2, ⟨2024, 1, 2⟩, 20, 8⟩], [], 3, 1⟩
        1 ⟨2024, 1, 2⟩ 30 9).1 =
      ⟨[⟨1, ⟨2024, 1, 1⟩, 10, 4⟩, ⟨2, ⟨2024, 1, 2⟩, 20, 8⟩], [], 3, 1⟩ ∧
    editSale ⟨[⟨1, ⟨2024, 1, 1⟩, 10, 4⟩, ⟨2, ⟨2024, 1, 2⟩, 20, 8⟩], [], 3, 1⟩
        1 ⟨2024, 1, 2⟩ 30 9 =
      Except.error "Another sale entry already exists for that date." := by
  have h := C3_edit_sale_conflict
    ⟨[⟨1, ⟨2024, 1, 1⟩, 10, 4⟩, ⟨2, ⟨2024, 1, 2⟩, 20, 8⟩], [], 3, 1⟩
    1 ⟨2024, 1, 2⟩ 30 9 ⟨1, ⟨2024, 1, 1⟩, 10, 4⟩ ⟨2, ⟨2024, 1, 2⟩, 20, 8⟩
    rfl (by decide) rfl (by decide)
  exact ⟨h.1, h.2 (by norm_num) (by norm_num)⟩

theorem C4_nonnegative_validation_witness :
    salesPost emptyDB ⟨2024, 1, 5⟩ (-1) 0 = Except.error "Values must be non-negative." ∧
    expensesPost emptyDB ⟨2024, 1, 5⟩ "milk" (-1) =
      Except.error "Amount must be non-negative." ∧
    expensesPost emptyDB ⟨2024, 1, 5⟩ "milk" 0 =
      Except.ok ⟨[], [⟨1, ⟨2024, 1, 5⟩, "milk", 0⟩], 1, 2⟩ := by
  refine ⟨?_, ?_, ?_⟩
  · exact C4_nonnegative_validation.1 emptyDB ⟨2024, 1, 5⟩ (-1) 0 (Or.inl (by norm_num))
  · exact C4_nonnegative_validation.2.2.1 emptyDB ⟨2024, 1, 5⟩ "milk" (-1)
      (by decide) (by norm_num)
  · have h := C4_nonnegative_validation.2.2.2.2.2.1 emptyDB ⟨2024, 1, 5⟩ "milk" 0
      (by decide) (by norm_num)
    rw [h]
    rfl

end Barbook
